import Mathlib

/-!
Verification development for the Digital Library backend
(`src/main.py`, `src/schemas.py`).

The service manages three collections of a document store: `book`,
`member` and `loan`.  Collections are modelled as association lists from
identifier strings to documents, and the whole store as a `DB` record.
The four state-changing endpoints (`add_book`, `add_member`,
`create_loan`, `return_book`) and the read endpoint `list_loans` are
translated function-by-function from `src/main.py`; fallible endpoints
return `Except AppError`, mirroring `raise HTTPException(status, detail)`.

`database.py` (imported by `main.py` as `create_document` / `get_documents`)
is not part of the sources; `createDoc` below is modelled from the spec's
contract for the Document Store Adapter.
-/

/-- An HTTP error, as raised by `HTTPException(status_code=..., detail=...)`. -/
structure AppError where
  status : Nat
  detail : String
deriving DecidableEq

/-- Request body of `POST /api/books` (`class BookIn` in `main.py`).
`main.py` puts no range constraint on `copies_total`. -/
structure BookIn where
  title : String
  author : String
  isbn : Option String := none
  published_year : Option Int := none
  categories : List String := []
  description : Option String := none
  copies_total : Int := 1
deriving DecidableEq

/-- Request body of `POST /api/members` (`class MemberIn` in `main.py`).
`email` is a plain `str` there; `add_member` stores the payload as-is,
so a member document has exactly these fields. -/
structure MemberIn where
  name : String
  email : String
  membership_id : Option String := none
  phone : Option String := none
deriving DecidableEq

/-- Request body of `POST /api/loans` (`class LoanIn` in `main.py`). -/
structure LoanIn where
  book_id : String
  member_id : String
  days : Int := 14
deriving DecidableEq

/-- A book document as inserted by `add_book`: the `BookIn` fields plus
`copies_available`.  Timestamps and counts are modelled as `Int`. -/
structure Book where
  title : String
  author : String
  isbn : Option String
  published_year : Option Int
  categories : List String
  description : Option String
  copies_total : Int
  copies_available : Int
deriving DecidableEq

/-- A loan document as inserted by `create_loan` and mutated by
`return_book`.  `loan_date` and `return_date` are UTC timestamps in
seconds; `due_date` is a calendar day number (the stored ISO date). -/
structure Loan where
  book_id : String
  member_id : String
  loan_date : Int
  due_date : Int
  status : String
  return_date : Option Int
deriving DecidableEq

/-- Hexadecimal characters, as accepted by `bson.ObjectId`. -/
def isHexChar (c : Char) : Bool :=
  (decide (48 ≤ c.toNat) && decide (c.toNat ≤ 57)) ||
  (decide (97 ≤ c.toNat) && decide (c.toNat ≤ 102)) ||
  (decide (65 ≤ c.toNat) && decide (c.toNat ≤ 70))

/-- `bson.ObjectId.is_valid` on a string: exactly 24 hex characters. -/
def isValidObjectId (s : String) : Bool :=
  s.length == 24 && s.data.all isHexChar

/-- The lower-case hex digit for `n % 16`. -/
def hexChar (n : Nat) : Char :=
  if n < 10 then Char.ofNat (48 + n) else Char.ofNat (87 + n)

/-- Modelled from the spec: "every record's primary key is a
store-generated unique identifier" whose string form is an ObjectId,
i.e. 24 hex characters.  The store's generator is modelled as a counter
rendered in (big-endian, zero-padded) hex. -/
def genId (n : Nat) : String :=
  String.mk ((List.range 24).map (fun i => hexChar (n / 16 ^ (23 - i) % 16)))

/-- `find_one` on a collection keyed by identifier strings. -/
def findDoc {α : Type} : List (String × α) → String → Option α
  | [], _ => none
  | (k, v) :: rest, id => if k == id then some v else findDoc rest id

/-- Modelled from the spec: `database.create_document` (the module
`database.py` is not among the sources): "inserts record, returns new
identifier as a string".  The identifier is generated by the store; its
primary-key uniqueness makes an insert under an already-used identifier
fail instead of storing a second document. -/
def createDoc {α : Type} (l : List (String × α)) (nextId : Nat) (doc : α) :
    Except AppError (String × List (String × α)) :=
  if (findDoc l (genId nextId)).isSome then Except.error ⟨500, "duplicate key"⟩
  else Except.ok (genId nextId, (genId nextId, doc) :: l)

/-- `update_one` filtered by `_id`: rewrites the first document with the
given identifier, if any, and leaves the rest of the collection alone. -/
def updateFirst {α : Type} : List (String × α) → String → (α → α) → List (String × α)
  | [], _, _ => []
  | (k, v) :: rest, id, f =>
      if k == id then (k, f v) :: rest else (k, v) :: updateFirst rest id f

/-- `_get_by_id(collection, id_str)` from `main.py`: 400 "Invalid id" on a
malformed identifier, 404 "(collection) not found" when absent. -/
def get_by_id {α : Type} (l : List (String × α)) (collection : String) (idStr : String) :
    Except AppError α :=
  if !isValidObjectId idStr then Except.error ⟨400, "Invalid id"⟩
  else
    match findDoc l idStr with
    | none => Except.error ⟨404, collection ++ " not found"⟩
    | some doc => Except.ok doc

/-- The document store: the three collections plus the id generator's
counter. -/
structure DB where
  books : List (String × Book)
  members : List (String × MemberIn)
  loans : List (String × Loan)
  nextId : Nat
deriving DecidableEq

/-- An empty store. -/
def dbInit : DB := ⟨[], [], [], 0⟩

/-- The `data` document built by `add_book`: the payload fields with
`copies_available` set to `copies_total`. -/
def mkBook (payload : BookIn) : Book :=
  { title := payload.title
    author := payload.author
    isbn := payload.isbn
    published_year := payload.published_year
    categories := payload.categories
    description := payload.description
    copies_total := payload.copies_total
    copies_available := payload.copies_total }

/-- `POST /api/books` (`add_book` in `main.py`): copies the payload and
sets `copies_available = copies_total`. -/
def add_book (db : DB) (payload : BookIn) : Except AppError (String × DB) :=
  match createDoc db.books db.nextId (mkBook payload) with
  | Except.error e => Except.error e
  | Except.ok (id, books2) =>
      Except.ok (id, { db with
                       books := books2
                       nextId := db.nextId + 1 })

/-- `POST /api/members` (`add_member` in `main.py`): stores the payload
as-is.  No email validation happens here: `MemberIn.email` is a plain
string (the `EmailStr` of `schemas.py` is not used by the endpoint). -/
def add_member (db : DB) (payload : MemberIn) : Except AppError (String × DB) :=
  match createDoc db.members db.nextId payload with
  | Except.error e => Except.error e
  | Except.ok (id, members2) =>
      Except.ok (id, { db with
                       members := members2
                       nextId := db.nextId + 1 })

/-- The calendar day of a UTC timestamp (`datetime.date()` in UTC):
floor division of the epoch-seconds value by 86400. -/
def dateOf (t : Int) : Int := t / 86400

/-- Decrement of `copies_available` (`$inc: -1` in `create_loan`). -/
def decCopies (b : Book) : Book :=
  { b with copies_available := b.copies_available - 1 }

/-- Increment of `copies_available` (`$inc: 1` in `return_book`). -/
def incCopies (b : Book) : Book :=
  { b with copies_available := b.copies_available + 1 }

/-- The `loan_data` document built by `create_loan`. -/
def mkLoan (now : Int) (payload : LoanIn) : Loan :=
  { book_id := payload.book_id, member_id := payload.member_id,
    loan_date := now, due_date := dateOf (now + payload.days * 86400),
    status := "borrowed", return_date := none }

/-- `POST /api/loans` (`create_loan` in `main.py`): book lookup,
availability check, member lookup, loan insert, then the decrement of
the book's `copies_available`. -/
def create_loan (db : DB) (now : Int) (payload : LoanIn) : Except AppError (String × DB) :=
  match get_by_id db.books "book" payload.book_id with
  | Except.error e => Except.error e
  | Except.ok book =>
      if book.copies_available ≤ 0 then Except.error ⟨400, "No copies available"⟩
      else
        match get_by_id db.members "member" payload.member_id with
        | Except.error e => Except.error e
        | Except.ok _ =>
            match createDoc db.loans db.nextId (mkLoan now payload) with
            | Except.error e => Except.error e
            | Except.ok (loan_id, loans2) =>
                Except.ok (loan_id,
                  { db with
                    loans := loans2
                    books := updateFirst db.books payload.book_id decCopies
                    nextId := db.nextId + 1 })

/-- The `$set` of `return_book`: status and return_date together. -/
def markReturned (now : Int) (l : Loan) : Loan :=
  { l with status := "returned", return_date := some now }

/-- `POST /api/loans/(loan_id)/return` (`return_book` in `main.py`):
loan lookup, already-returned check, mark returned, and the increment of
the book's copies, skipped when the stored `book_id` is not a
well-formed ObjectId.  On success the endpoint answers with status
string "ok". -/
def return_book (db : DB) (now : Int) (loan_id : String) : Except AppError (String × DB) :=
  match get_by_id db.loans "loan" loan_id with
  | Except.error e => Except.error e
  | Except.ok loan =>
      if loan.status == "returned" then Except.error ⟨400, "Already returned"⟩
      else
        let loans2 := updateFirst db.loans loan_id (markReturned now)
        let books2 :=
          if isValidObjectId loan.book_id then
            updateFirst db.books loan.book_id incCopies
          else db.books
        Except.ok ("ok", { db with loans := loans2, books := books2 })

/-- `GET /api/loans` (`list_loans` in `main.py`): optional exact-match
status filter; an empty string is falsy in Python and filters nothing. -/
def list_loans (db : DB) (status : Option String) : List (String × Loan) :=
  match status with
  | none => db.loans
  | some s => if s == "" then db.loans else db.loans.filter (fun p => p.2.status == s)

/-- Modelled from the spec: `add_member` "requires name, email (must be a
syntactically valid email address ...)" and `schemas.py` declares
`email: EmailStr`, but no such check exists in `src/main.py`.  Minimal
syntactic validity: one "@" separating a nonempty local part from a
nonempty domain containing a dot. -/
def validEmail (s : String) : Bool :=
  match s.data.splitOn '@' with
  | [lp, dom] => !lp.isEmpty && !dom.isEmpty && dom.contains '.'
  | _ => false

/- ### Basic lemmas about the store primitives -/

theorem findDoc_updateFirst_self {α : Type} (l : List (String × α)) (id : String) (f : α → α) :
    findDoc (updateFirst l id f) id = (findDoc l id).map f := by
  induction l with
  | nil => rfl
  | cons p rest ih =>
      obtain ⟨k, v⟩ := p
      by_cases h : k == id
      · simp [updateFirst, findDoc, h]
      · simp [updateFirst, findDoc, h, ih]

theorem findDoc_updateFirst_ne {α : Type} (l : List (String × α)) (id k2 : String)
    (f : α → α) (h : k2 ≠ id) :
    findDoc (updateFirst l id f) k2 = findDoc l k2 := by
  induction l with
  | nil => rfl
  | cons p rest ih =>
      obtain ⟨k, v⟩ := p
      by_cases hk : k == id
      · have hk' : k = id := by simpa using hk
        subst hk'
        have : (k == k2) = false := by
          simpa using fun hc => h hc.symm
        simp [updateFirst, findDoc, this]
      · simp only [updateFirst, hk, if_false]
        by_cases hk2 : k == k2
        · simp [findDoc, hk2]
        · simp [findDoc, hk2, ih]

theorem updateFirst_keys {α : Type} (l : List (String × α)) (id : String) (f : α → α) :
    (updateFirst l id f).map Prod.fst = l.map Prod.fst := by
  induction l with
  | nil => rfl
  | cons p rest ih =>
      obtain ⟨k, v⟩ := p
      by_cases h : k == id
      · simp [updateFirst, h]
      · simp [updateFirst, h, ih]

theorem findDoc_some_mem {α : Type} (l : List (String × α)) (id : String) (v : α)
    (h : findDoc l id = some v) : (id, v) ∈ l := by
  induction l with
  | nil => simp [findDoc] at h
  | cons p rest ih =>
      obtain ⟨k, w⟩ := p
      by_cases hk : k == id
      · have hk' : k = id := by simpa using hk
        subst hk'
        simp [findDoc] at h
        simp [h]
      · simp only [findDoc, hk, if_false] at h
        exact List.mem_cons_of_mem _ (ih h)

theorem findDoc_none_not_mem {α : Type} (l : List (String × α)) (id : String)
    (h : findDoc l id = none) : ∀ v : α, (id, v) ∉ l := by
  induction l with
  | nil => simp
  | cons p rest ih =>
      obtain ⟨k, w⟩ := p
      by_cases hk : k == id
      · simp [findDoc, hk] at h
      · simp only [findDoc, hk, if_false] at h
        intro v hv
        rcases List.mem_cons.mp hv with hv | hv
        · exact absurd (congrArg Prod.fst hv).symm (by simpa using hk)
        · exact ih h v hv

theorem mem_updateFirst {α : Type} (l : List (String × α)) (id : String) (f : α → α)
    (p : String × α) (hp : p ∈ updateFirst l id f) :
    p ∈ l ∨ ∃ v, findDoc l id = some v ∧ p = (id, f v) := by
  induction l with
  | nil => simp [updateFirst] at hp
  | cons q rest ih =>
      obtain ⟨k, v⟩ := q
      by_cases hk : k == id
      · have hk' : k = id := by simpa using hk
        subst hk'
        simp only [updateFirst, beq_self_eq_true, if_true] at hp
        rcases List.mem_cons.mp hp with hp | hp
        · exact Or.inr ⟨v, by simp [findDoc], hp⟩
        · exact Or.inl (List.mem_cons_of_mem _ hp)
      · simp only [updateFirst, hk, if_false] at hp
        rcases List.mem_cons.mp hp with hp | hp
        · exact Or.inl (by simp [hp])
        · rcases ih hp with h | ⟨w, hw, hpw⟩
          · exact Or.inl (List.mem_cons_of_mem _ h)
          · exact Or.inr ⟨w, by simp [findDoc, hk, hw], hpw⟩

theorem mem_updateFirst_nodup {α : Type} (l : List (String × α)) (id : String) (f : α → α)
    (hn : (l.map Prod.fst).Nodup) (p : String × α) (hp : p ∈ updateFirst l id f) :
    (p ∈ l ∧ p.1 ≠ id) ∨ ∃ v, findDoc l id = some v ∧ p = (id, f v) := by
  induction l with
  | nil => simp [updateFirst] at hp
  | cons q rest ih =>
      obtain ⟨k, v⟩ := q
      simp only [List.map_cons, List.nodup_cons] at hn
      by_cases hk : k == id
      · have hk' : k = id := by simpa using hk
        subst hk'
        simp only [updateFirst, beq_self_eq_true, if_true] at hp
        rcases List.mem_cons.mp hp with hp | hp
        · exact Or.inr ⟨v, by simp [findDoc], hp⟩
        · refine Or.inl ⟨List.mem_cons_of_mem _ hp, fun hc => ?_⟩
          exact hn.1 (by simpa [hc] using List.mem_map_of_mem Prod.fst hp)
      · simp only [updateFirst, hk, if_false] at hp
        rcases List.mem_cons.mp hp with hp | hp
        · subst hp
          exact Or.inl ⟨List.mem_cons_self _ _, by simpa using hk⟩
        · rcases ih hn.2 hp with ⟨h1, h2⟩ | ⟨w, hw, hpw⟩
          · exact Or.inl ⟨List.mem_cons_of_mem _ h1, h2⟩
          · exact Or.inr ⟨w, by simp [findDoc, hk, hw], hpw⟩

theorem isHexChar_hexChar : ∀ m : Nat, m < 16 → isHexChar (hexChar m) = true := by
  decide

theorem isValidObjectId_genId (n : Nat) : isValidObjectId (genId n) = true := by
  have hlen : (genId n).length = 24 := by
    simp [genId, String.length]
  have hall : ∀ c ∈ (genId n).data, isHexChar c = true := by
    intro c hc
    simp only [genId] at hc
    rcases List.mem_map.mp hc with ⟨i, _, rfl⟩
    exact isHexChar_hexChar _ (Nat.mod_lt _ (by norm_num))
  simp only [isValidObjectId, Bool.and_eq_true, beq_iff_eq, List.all_eq_true]
  exact ⟨hlen, hall⟩

/- ### Inversion lemmas for the endpoint functions -/

theorem createDoc_ok {α : Type} {l : List (String × α)} {n : Nat} {doc : α}
    {id2 : String} {l2 : List (String × α)}
    (h : createDoc l n doc = Except.ok (id2, l2)) :
    id2 = genId n ∧ l2 = (genId n, doc) :: l ∧ findDoc l (genId n) = none := by
  cases hfd : findDoc l (genId n) with
  | some v => rw [createDoc] at h; rw [hfd] at h; simp at h
  | none =>
      rw [createDoc] at h; rw [hfd] at h
      simp only [Option.isSome_none, Bool.false_eq_true, if_false, Except.ok.injEq,
        Prod.mk.injEq] at h
      exact ⟨h.1.symm, h.2.symm, rfl⟩

theorem add_book_ok {db : DB} {pl : BookIn} {id : String} {db2 : DB}
    (h : add_book db pl = Except.ok (id, db2)) :
    id = genId db.nextId ∧
    db2 = { db with
            books := (genId db.nextId, mkBook pl) :: db.books
            nextId := db.nextId + 1 } ∧
    findDoc db.books (genId db.nextId) = none := by
  unfold add_book at h
  split at h
  · simp at h
  · rename_i id3 books2 heq
    simp only [Except.ok.injEq, Prod.mk.injEq] at h
    obtain ⟨hid, hdb⟩ := h
    obtain ⟨h1, h2, h3⟩ := createDoc_ok heq
    refine ⟨hid.symm.trans h1, ?_, h3⟩
    rw [← hdb, h2]

theorem add_member_ok {db : DB} {pl : MemberIn} {id : String} {db2 : DB}
    (h : add_member db pl = Except.ok (id, db2)) :
    id = genId db.nextId ∧
    db2 = { db with
            members := (genId db.nextId, pl) :: db.members
            nextId := db.nextId + 1 } ∧
    findDoc db.members (genId db.nextId) = none := by
  unfold add_member at h
  split at h
  · simp at h
  · rename_i id3 members2 heq
    simp only [Except.ok.injEq, Prod.mk.injEq] at h
    obtain ⟨hid, hdb⟩ := h
    obtain ⟨h1, h2, h3⟩ := createDoc_ok heq
    refine ⟨hid.symm.trans h1, ?_, h3⟩
    rw [← hdb, h2]

theorem get_by_id_ok {α : Type} {l : List (String × α)} {c idStr : String} {v : α}
    (h : get_by_id l c idStr = Except.ok v) :
    isValidObjectId idStr = true ∧ findDoc l idStr = some v := by
  unfold get_by_id at h
  split at h
  · simp at h
  · rename_i hvalid
    split at h
    · simp at h
    · rename_i doc hfd
      simp only [Except.ok.injEq] at h
      subst h
      exact ⟨by simpa using hvalid, hfd⟩

theorem get_by_id_eq_ok {α : Type} (l : List (String × α)) (c idStr : String) (v : α)
    (hv : isValidObjectId idStr = true) (hf : findDoc l idStr = some v) :
    get_by_id l c idStr = Except.ok v := by
  simp [get_by_id, hv, hf]

theorem create_loan_ok {db : DB} {now : Int} {pl : LoanIn} {lid : String} {db2 : DB}
    (h : create_loan db now pl = Except.ok (lid, db2)) :
    isValidObjectId pl.book_id = true ∧
    isValidObjectId pl.member_id = true ∧
    ∃ book, findDoc db.books pl.book_id = some book ∧
      ¬book.copies_available ≤ 0 ∧
      (∃ m, findDoc db.members pl.member_id = some m) ∧
      findDoc db.loans (genId db.nextId) = none ∧
      lid = genId db.nextId ∧
      db2 = { db with
              loans := (genId db.nextId, mkLoan now pl) :: db.loans
              books := updateFirst db.books pl.book_id decCopies
              nextId := db.nextId + 1 } := by
  unfold create_loan at h
  split at h
  · simp at h
  · rename_i book heq1
    obtain ⟨hv1, hf1⟩ := get_by_id_ok heq1
    split at h
    · simp at h
    · rename_i hcopies
      split at h
      · simp at h
      · rename_i m heq2
        obtain ⟨hv2, hf2⟩ := get_by_id_ok heq2
        split at h
        · simp at h
        · rename_i lid3 loans2 heq3
          obtain ⟨h1, h2, h3⟩ := createDoc_ok heq3
          simp only [Except.ok.injEq, Prod.mk.injEq] at h
          obtain ⟨hlid, hdb⟩ := h
          refine ⟨hv1, hv2, book, hf1, hcopies, ⟨m, hf2⟩, h3, hlid.symm.trans h1, ?_⟩
          rw [← hdb, h2]

theorem return_book_ok {db : DB} {now : Int} {lid s : String} {db2 : DB}
    (h : return_book db now lid = Except.ok (s, db2)) :
    s = "ok" ∧ isValidObjectId lid = true ∧
    ∃ loan, findDoc db.loans lid = some loan ∧
      loan.status ≠ "returned" ∧
      db2 = { db with
              loans := updateFirst db.loans lid (markReturned now)
              books := if isValidObjectId loan.book_id = true
                       then updateFirst db.books loan.book_id incCopies
                       else db.books } := by
  unfold return_book at h
  split at h
  · simp at h
  · rename_i loan heq1
    obtain ⟨hv, hf⟩ := get_by_id_ok heq1
    split at h
    · simp at h
    · rename_i hst
      simp only [Except.ok.injEq, Prod.mk.injEq] at h
      obtain ⟨hs, hdb⟩ := h
      refine ⟨hs.symm, hv, loan, hf, by simpa using hst, ?_⟩
      rw [← hdb]

theorem dateOf_add_days (t d : Int) : dateOf (t + d * 86400) = dateOf t + d := by
  unfold dateOf
  exact Int.add_mul_ediv_right t d (by norm_num)

/- ### Claim theorems -/

/-- C7: for every `add_book` input with `copies_total = N`, the created
book record has `copies_available = N` (and `copies_total = N`). -/
theorem c7_add_book_sets_available (db : DB) (pl : BookIn) (id : String) (db2 : DB)
    (h : add_book db pl = Except.ok (id, db2)) :
    (findDoc db2.books id).map Book.copies_available = some pl.copies_total ∧
    (findDoc db2.books id).map Book.copies_total = some pl.copies_total := by
  obtain ⟨h1, h2, _⟩ := add_book_ok h
  subst h1
  subst h2
  simp [findDoc, mkBook]

/-- Witness for C7 at a concrete input. -/
theorem c7_witness :
    (findDoc ({ dbInit with
                books := [(genId 0, mkBook { title := "Dune", author := "Herbert" })]
                nextId := 1 } : DB).books (genId 0)).map Book.copies_available =
      some 1 ∧
    (findDoc ({ dbInit with
                books := [(genId 0, mkBook { title := "Dune", author := "Herbert" })]
                nextId := 1 } : DB).books (genId 0)).map Book.copies_total = some 1 :=
  c7_add_book_sets_available dbInit { title := "Dune", author := "Herbert" } (genId 0) _ rfl

/-- C1: on a stored book with `copies_available ≤ 0`, `create_loan` fails
with 400 "No copies available", whatever the member identifier is, and
the failure changes no state (the endpoint raises before any write). -/
theorem c1_no_copies_available (db : DB) (now : Int) (pl : LoanIn) (b : Book)
    (hv : isValidObjectId pl.book_id = true)
    (hf : findDoc db.books pl.book_id = some b)
    (hc : b.copies_available ≤ 0) :
    create_loan db now pl = Except.error ⟨400, "No copies available"⟩ := by
  unfold create_loan
  rw [get_by_id_eq_ok db.books "book" pl.book_id b hv hf]
  simp [hc]

/-- Witness for C1: a book with zero available copies and a garbage
member identifier. -/
theorem c1_witness :
    create_loan
      { dbInit with
        books := [(genId 0, mkBook { title := "T", author := "A", copies_total := 0 })]
        nextId := 1 }
      0 { book_id := genId 0, member_id := "nonsense" } =
      Except.error ⟨400, "No copies available"⟩ :=
  c1_no_copies_available _ 0 _ (mkBook { title := "T", author := "A", copies_total := 0 })
    (isValidObjectId_genId 0) rfl (by decide)

/-- C6 (code bug): `main.py`'s `MemberIn.email` is a plain `str`, so the
request body with email "not-an-email" is not rejected: `add_member`
succeeds and stores the member, although the address is not
syntactically valid.  (`schemas.py` declares `email: EmailStr`, but the
endpoint never uses it.) -/
theorem c6_email_not_validated :
    validEmail "not-an-email" = false ∧
    add_member dbInit { name := "Alice", email := "not-an-email" } =
      Except.ok (genId 0,
        { dbInit with
          members := [(genId 0, { name := "Alice", email := "not-an-email" })]
          nextId := 1 }) := by
  exact ⟨by decide, rfl⟩

/-- C3 counterexample: `add_book` does not validate `copies_total`, so a
book can be created with `copies_available = copies_total = -1`, and
`0 ≤ copies_available` is already false right after creation. -/
theorem c3_counterexample :
    add_book dbInit { title := "T", author := "A", copies_total := -1 } =
      Except.ok (genId 0,
        { dbInit with
          books := [(genId 0, mkBook { title := "T", author := "A", copies_total := -1 })]
          nextId := 1 }) ∧
    (mkBook { title := "T", author := "A", copies_total := -1 }).copies_available = -1 ∧
    ¬0 ≤ (mkBook { title := "T", author := "A", copies_total := -1 }).copies_available := by
  exact ⟨rfl, rfl, by decide⟩

/-- C8: a successful `create_loan` stores `loan_date = now` and
`due_date = date(now) + days`. -/
theorem c8_loan_dates (db : DB) (now : Int) (pl : LoanIn) (lid : String) (db2 : DB)
    (h : create_loan db now pl = Except.ok (lid, db2)) :
    (findDoc db2.loans lid).map Loan.loan_date = some now ∧
    (findDoc db2.loans lid).map Loan.due_date = some (dateOf now + pl.days) := by
  obtain ⟨hv1, hv2, book, hf1, hc, hm, hfl, hlid, hdb⟩ := create_loan_ok h
  subst hlid
  subst hdb
  simp [findDoc, mkLoan, dateOf_add_days]

/- ### Concrete example states, used by the witnesses -/

/-- Example book payload. -/
def bkEx : BookIn := { title := "Dune", author := "Herbert" }

/-- Example member payload. -/
def mbEx : MemberIn := { name := "Ann", email := "ann@example.com" }

/-- Example loan payload: the example book and member, 7 days. -/
def plEx : LoanIn := { book_id := genId 0, member_id := genId 1, days := 7 }

/-- Store after `add_book dbInit bkEx`. -/
def dbEx1 : DB :=
  { books := [(genId 0, mkBook bkEx)]
    members := []
    loans := []
    nextId := 1 }

/-- Store after `add_member dbEx1 mbEx`. -/
def dbEx2 : DB :=
  { books := [(genId 0, mkBook bkEx)]
    members := [(genId 1, mbEx)]
    loans := []
    nextId := 2 }

/-- The example book while on loan: `copies_available` down to 0. -/
def bookExLoaned : Book :=
  { title := "Dune", author := "Herbert", isbn := none, published_year := none,
    categories := [], description := none, copies_total := 1, copies_available := 0 }

/-- The loan created by `create_loan dbEx2 0 plEx`. -/
def loanEx : Loan :=
  { book_id := genId 0, member_id := genId 1, loan_date := 0, due_date := 7,
    status := "borrowed", return_date := none }

/-- Store after `create_loan dbEx2 0 plEx`. -/
def dbEx3 : DB :=
  { books := [(genId 0, bookExLoaned)]
    members := [(genId 1, mbEx)]
    loans := [(genId 2, loanEx)]
    nextId := 3 }

/-- The example loan after being returned at time 100. -/
def loanExRet : Loan :=
  { book_id := genId 0, member_id := genId 1, loan_date := 0, due_date := 7,
    status := "returned", return_date := some 100 }

/-- Store after `return_book dbEx3 100 (genId 2)`. -/
def dbEx4 : DB :=
  { books := [(genId 0, mkBook bkEx)]
    members := [(genId 1, mbEx)]
    loans := [(genId 2, loanExRet)]
    nextId := 3 }

theorem add_book_ex : add_book dbInit bkEx = Except.ok (genId 0, dbEx1) := rfl

theorem add_member_ex : add_member dbEx1 mbEx = Except.ok (genId 1, dbEx2) := rfl

theorem create_loan_ex : create_loan dbEx2 0 plEx = Except.ok (genId 2, dbEx3) := rfl

theorem return_book_ex : return_book dbEx3 100 (genId 2) = Except.ok ("ok", dbEx4) := rfl

/-- Witness for C8: a loan taken at time 0 for 7 days is due on day 7. -/
theorem c8_witness :
    (findDoc dbEx3.loans (genId 2)).map Loan.loan_date = some 0 ∧
    (findDoc dbEx3.loans (genId 2)).map Loan.due_date = some (dateOf 0 + 7) :=
  c8_loan_dates dbEx2 0 plEx (genId 2) dbEx3 create_loan_ex

/-- Second return of an already-returned loan fails with 400
"Already returned" and, since the check precedes every write, neither
the loan nor any book changes. -/
theorem return_book_already (db : DB) (now : Int) (lid : String) (loan : Loan)
    (hv : isValidObjectId lid = true)
    (hf : findDoc db.loans lid = some loan)
    (hst : loan.status = "returned") :
    return_book db now lid = Except.error ⟨400, "Already returned"⟩ := by
  unfold return_book
  rw [get_by_id_eq_ok db.loans "loan" lid loan hv hf]
  simp [hst]

/-- C4: `return_loan` is not idempotent.  A loan whose status is already
"returned" makes `return_loan` fail with 400 "Already returned" (before
any write, so loan and book are untouched); in particular, after any
successful `return_loan`, a second call on the same loan fails that
way. -/
theorem c4_return_not_idempotent :
    (∀ (db : DB) (now : Int) (lid : String) (loan : Loan),
        isValidObjectId lid = true →
        findDoc db.loans lid = some loan →
        loan.status = "returned" →
        return_book db now lid = Except.error ⟨400, "Already returned"⟩) ∧
    (∀ (db db2 : DB) (now now2 : Int) (lid s : String),
        return_book db now lid = Except.ok (s, db2) →
        return_book db2 now2 lid = Except.error ⟨400, "Already returned"⟩) := by
  constructor
  · intro db now lid loan hv hf hst
    exact return_book_already db now lid loan hv hf hst
  · intro db db2 now now2 lid s h
    obtain ⟨-, hv, loan, hf, -, hdb⟩ := return_book_ok h
    subst hdb
    refine return_book_already _ now2 lid (markReturned now loan) hv ?_ rfl
    rw [findDoc_updateFirst_self, hf]
    rfl

/-- Witness for C4: returning the concrete already-returned loan fails,
both when starting from the post-return store itself and as the second
of two calls. -/
theorem c4_witness :
    return_book dbEx4 200 (genId 2) = Except.error ⟨400, "Already returned"⟩ ∧
    return_book dbEx4 300 (genId 2) = Except.error ⟨400, "Already returned"⟩ :=
  ⟨c4_return_not_idempotent.1 dbEx4 200 (genId 2) loanExRet (isValidObjectId_genId 2) rfl rfl,
   c4_return_not_idempotent.2 dbEx3 dbEx4 100 300 (genId 2) "ok" return_book_ex⟩

/-- C5: on a loan that is not yet returned, `return_loan` succeeds with
acknowledgment "ok" and marks the loan returned; when the stored book_id
is not a well-formed ObjectId the book increment is silently skipped
(the book collection is untouched), and when it is well-formed the
referenced book's `copies_available` is incremented by 1. -/
theorem c5_return_bad_book_id (db : DB) (now : Int) (lid : String) (loan : Loan)
    (hv : isValidObjectId lid = true)
    (hf : findDoc db.loans lid = some loan)
    (hst : loan.status ≠ "returned") :
    findDoc (updateFirst db.loans lid (markReturned now)) lid =
      some (markReturned now loan) ∧
    (isValidObjectId loan.book_id = false →
      return_book db now lid =
        Except.ok ("ok",
          { db with loans := updateFirst db.loans lid (markReturned now) })) ∧
    (isValidObjectId loan.book_id = true →
      return_book db now lid =
        Except.ok ("ok",
          { db with
            loans := updateFirst db.loans lid (markReturned now)
            books := updateFirst db.books loan.book_id incCopies })) ∧
    (∀ b : Book, findDoc db.books loan.book_id = some b →
        (findDoc (updateFirst db.books loan.book_id incCopies) loan.book_id).map
          Book.copies_available = some (b.copies_available + 1)) := by
  have hbeq : (loan.status == "returned") = false := by
    simpa using hst
  refine ⟨?_, ?_, ?_, ?_⟩
  · rw [findDoc_updateFirst_self, hf]; rfl
  · intro hbad
    unfold return_book
    rw [get_by_id_eq_ok db.loans "loan" lid loan hv hf]
    simp [hbeq, hbad]
  · intro hgood
    unfold return_book
    rw [get_by_id_eq_ok db.loans "loan" lid loan hv hf]
    simp [hbeq, hgood]
  · intro b hb
    rw [findDoc_updateFirst_self, hb]
    rfl

/-- A store holding one loan whose stored book_id is malformed. -/
def dbBad : DB :=
  { books := []
    members := []
    loans := [(genId 5, { book_id := "bogus", member_id := genId 1, loan_date := 0,
                          due_date := 7, status := "borrowed", return_date := none })]
    nextId := 6 }

/-- Witness for C5: with a malformed stored book_id the return succeeds
and books are untouched; with the well-formed one the book's
`copies_available` goes from 0 to 1. -/
theorem c5_witness :
    return_book dbBad 50 (genId 5) =
      Except.ok ("ok",
        { dbBad with loans := updateFirst dbBad.loans (genId 5) (markReturned 50) }) ∧
    (findDoc (updateFirst dbEx3.books (genId 0) incCopies) (genId 0)).map
      Book.copies_available = some (bookExLoaned.copies_available + 1) :=
  ⟨(c5_return_bad_book_id dbBad 50 (genId 5)
      { book_id := "bogus", member_id := genId 1, loan_date := 0,
        due_date := 7, status := "borrowed", return_date := none }
      (isValidObjectId_genId 5) rfl (by decide)).2.1 rfl,
   (c5_return_bad_book_id dbEx3 100 (genId 2) loanEx
      (isValidObjectId_genId 2) rfl (by decide)).2.2.2 bookExLoaned rfl⟩

/-- The fields of a book other than `copies_available`. -/
def bookFrame (b : Book) :
    String × String × Option String × Option Int × List String × Option String × Int :=
  (b.title, b.author, b.isbn, b.published_year, b.categories, b.description,
   b.copies_total)

/-- C10: a successful `return_loan` touches only the loan's `status` and
`return_date` and the referenced book's `copies_available`: members and
the id counter are unchanged, every other loan is unchanged, the
returned loan keeps its book_id/member_id/loan_date/due_date, every
other book is unchanged, and even the touched book keeps all fields but
`copies_available`. -/
theorem c10_return_frame (db db2 : DB) (now : Int) (lid s : String) (loan : Loan)
    (h : return_book db now lid = Except.ok (s, db2))
    (hf : findDoc db.loans lid = some loan) :
    db2.members = db.members ∧
    db2.nextId = db.nextId ∧
    (∀ k, k ≠ lid → findDoc db2.loans k = findDoc db.loans k) ∧
    findDoc db2.loans lid = some (markReturned now loan) ∧
    (markReturned now loan).book_id = loan.book_id ∧
    (markReturned now loan).member_id = loan.member_id ∧
    (markReturned now loan).loan_date = loan.loan_date ∧
    (markReturned now loan).due_date = loan.due_date ∧
    (∀ k, k ≠ loan.book_id → findDoc db2.books k = findDoc db.books k) ∧
    (∀ k, (findDoc db2.books k).map bookFrame = (findDoc db.books k).map bookFrame) := by
  obtain ⟨-, -, loan2, hf2, -, hdb⟩ := return_book_ok h
  have hll : loan2 = loan := by
    rw [hf] at hf2
    exact (Option.some.inj hf2).symm
  subst hll
  subst hdb
  refine ⟨rfl, rfl, ?_, ?_, rfl, rfl, rfl, rfl, ?_, ?_⟩
  · intro k hk
    exact findDoc_updateFirst_ne db.loans lid k (markReturned now) hk
  · rw [findDoc_updateFirst_self, hf]; rfl
  · intro k hk
    by_cases hval : isValidObjectId loan2.book_id = true
    · rw [if_pos hval]
      exact findDoc_updateFirst_ne db.books loan2.book_id k incCopies hk
    · rw [if_neg hval]
  · intro k
    by_cases hval : isValidObjectId loan2.book_id = true
    · rw [if_pos hval]
      by_cases hk : k = loan2.book_id
      · subst hk
        rw [findDoc_updateFirst_self]
        cases findDoc db.books loan2.book_id with
        | none => rfl
        | some b => rfl
      · rw [findDoc_updateFirst_ne db.books loan2.book_id k incCopies hk]
    · rw [if_neg hval]

/-- Witness for C10 at the concrete return. -/
theorem c10_witness :
    dbEx4.members = dbEx3.members ∧
    findDoc dbEx4.loans (genId 2) = some (markReturned 100 loanEx) ∧
    (findDoc dbEx4.books (genId 0)).map bookFrame =
      (findDoc dbEx3.books (genId 0)).map bookFrame := by
  obtain ⟨h1, h2, h3, h4, h5, h6, h7, h8, h9, h10⟩ :=
    c10_return_frame dbEx3 dbEx4 100 (genId 2) "ok" loanEx return_book_ex rfl
  exact ⟨h1, h4, h10 (genId 0)⟩

/-- C2: a successful `create_loan` immediately followed by `return_loan`
of the created loan restores the book's `copies_available` to its
pre-loan value; the loan decrements it by exactly 1 and the return
increments it by exactly 1. -/
theorem c2_loan_return_roundtrip (db db1 db2 : DB) (now1 now2 : Int) (pl : LoanIn)
    (lid s : String) (b0 : Book)
    (hb0 : findDoc db.books pl.book_id = some b0)
    (h1 : create_loan db now1 pl = Except.ok (lid, db1))
    (h2 : return_book db1 now2 lid = Except.ok (s, db2)) :
    (findDoc db1.books pl.book_id).map Book.copies_available =
      some (b0.copies_available - 1) ∧
    (findDoc db2.books pl.book_id).map Book.copies_available =
      some b0.copies_available := by
  obtain ⟨hv1, hv2, book, hf1, hc, -, hfl, hlid, hdb1⟩ := create_loan_ok h1
  have hbb : book = b0 := by
    rw [hb0] at hf1
    exact (Option.some.inj hf1).symm
  subst hbb
  subst hlid
  subst hdb1
  constructor
  · rw [findDoc_updateFirst_self, hb0]
    rfl
  · obtain ⟨-, hvl, loan, hfloan, hstl, hdb2⟩ := return_book_ok h2
    have hln : loan = mkLoan now1 pl := by
      simp only [findDoc, beq_self_eq_true, if_true] at hfloan
      exact (Option.some.inj hfloan).symm
    subst hln
    subst hdb2
    have hbid : (mkLoan now1 pl).book_id = pl.book_id := rfl
    rw [hbid, if_pos hv1]
    rw [findDoc_updateFirst_self, findDoc_updateFirst_self, hb0]
    simp [incCopies, decCopies]

/-- Witness for C2 at the concrete loan/return pair. -/
theorem c2_witness :
    (findDoc dbEx3.books (genId 0)).map Book.copies_available =
      some ((mkBook bkEx).copies_available - 1) ∧
    (findDoc dbEx4.books (genId 0)).map Book.copies_available =
      some (mkBook bkEx).copies_available :=
  c2_loan_return_roundtrip dbEx2 dbEx3 dbEx4 0 100 plEx (genId 2) "ok" (mkBook bkEx)
    rfl create_loan_ex return_book_ex

/- ### Execution steps and reachable stores -/

/-- One successful state-changing request against the store. -/
inductive Step : DB → DB → Prop where
  | addBook (db : DB) (pl : BookIn) (id : String) (db2 : DB)
      (h : add_book db pl = Except.ok (id, db2)) : Step db db2
  | addMember (db : DB) (pl : MemberIn) (id : String) (db2 : DB)
      (h : add_member db pl = Except.ok (id, db2)) : Step db db2
  | createLoan (db : DB) (now : Int) (pl : LoanIn) (id : String) (db2 : DB)
      (h : create_loan db now pl = Except.ok (id, db2)) : Step db db2
  | returnLoan (db : DB) (now : Int) (lid s : String) (db2 : DB)
      (h : return_book db now lid = Except.ok (s, db2)) : Step db db2

/-- Stores reachable from the empty store by successful requests.
Failed requests raise before writing and do not change the store. -/
inductive ReachA : DB → Prop where
  | init : ReachA dbInit
  | step (db db2 : DB) (h1 : ReachA db) (h2 : Step db db2) : ReachA db2

/-- Like `Step`, but book creations carry a nonnegative `copies_total`
(the precondition `add_book` itself does not enforce). -/
inductive GoodStep : DB → DB → Prop where
  | addBook (db : DB) (pl : BookIn) (id : String) (db2 : DB)
      (hct : 0 ≤ pl.copies_total)
      (h : add_book db pl = Except.ok (id, db2)) : GoodStep db db2
  | addMember (db : DB) (pl : MemberIn) (id : String) (db2 : DB)
      (h : add_member db pl = Except.ok (id, db2)) : GoodStep db db2
  | createLoan (db : DB) (now : Int) (pl : LoanIn) (id : String) (db2 : DB)
      (h : create_loan db now pl = Except.ok (id, db2)) : GoodStep db db2
  | returnLoan (db : DB) (now : Int) (lid s : String) (db2 : DB)
      (h : return_book db now lid = Except.ok (s, db2)) : GoodStep db db2

/-- Stores reachable from the empty store when every created book has a
nonnegative `copies_total`. -/
inductive ReachG : DB → Prop where
  | init : ReachG dbInit
  | step (db db2 : DB) (h1 : ReachG db) (h2 : GoodStep db db2) : ReachG db2

/- ### C9: returned loans always carry a return_date -/

/-- Every stored loan with status "returned" has a return_date. -/
def RetInv (db : DB) : Prop :=
  ∀ p ∈ db.loans, p.2.status = "returned" → p.2.return_date ≠ none

theorem retInv_step (db db2 : DB) (h : Step db db2) : RetInv db → RetInv db2 := by
  cases h with
  | addBook pl id db2x heq =>
      intro hi
      obtain ⟨-, hdb, -⟩ := add_book_ok heq
      subst hdb
      exact hi
  | addMember pl id db2x heq =>
      intro hi
      obtain ⟨-, hdb, -⟩ := add_member_ok heq
      subst hdb
      exact hi
  | createLoan now pl id db2x heq =>
      intro hi
      obtain ⟨-, -, book, -, -, -, -, -, hdb⟩ := create_loan_ok heq
      subst hdb
      intro p hp hret
      rcases List.mem_cons.mp hp with rfl | hp
      · simp [mkLoan] at hret
      · exact hi p hp hret
  | returnLoan now lid s db2x heq =>
      intro hi
      obtain ⟨-, -, loan, hf, hst, hdb⟩ := return_book_ok heq
      subst hdb
      intro p hp hret
      rcases mem_updateFirst db.loans lid (markReturned now) p hp with hp | ⟨v, hv, rfl⟩
      · exact hi p hp hret
      · simp [markReturned]

theorem reachA_retInv (db : DB) (h : ReachA db) : RetInv db := by
  induction h with
  | init => intro p hp; simp [dbInit] at hp
  | step db db2 h1 h2 ih => exact retInv_step db db2 h2 ih

theorem list_loans_returned (db : DB) :
    list_loans db (some "returned") =
      db.loans.filter (fun p => p.2.status == "returned") := rfl

/-- C9: in every reachable store, a loan listed under
`status=returned` has its return_date set (status and return_date are
written together on return, and loans are created "borrowed"). -/
theorem c9_returned_has_return_date (db : DB) (lid : String) (l : Loan)
    (hr : ReachA db) (hmem : (lid, l) ∈ list_loans db (some "returned")) :
    l.return_date ≠ none := by
  rw [list_loans_returned] at hmem
  obtain ⟨hmem, hst⟩ := List.mem_filter.mp hmem
  exact reachA_retInv db hr (lid, l) hmem (by simpa using hst)

theorem reachA_dbEx4 : ReachA dbEx4 :=
  ReachA.step dbEx3 dbEx4
    (ReachA.step dbEx2 dbEx3
      (ReachA.step dbEx1 dbEx2
        (ReachA.step dbInit dbEx1 ReachA.init
          (Step.addBook dbInit bkEx (genId 0) dbEx1 add_book_ex))
        (Step.addMember dbEx1 mbEx (genId 1) dbEx2 add_member_ex))
      (Step.createLoan dbEx2 0 plEx (genId 2) dbEx3 create_loan_ex))
    (Step.returnLoan dbEx3 100 (genId 2) "ok" dbEx4 return_book_ex)

/-- Witness for C9 at the concrete returned loan. -/
theorem c9_witness : loanExRet.return_date ≠ none :=
  c9_returned_has_return_date dbEx4 (genId 2) loanExRet reachA_dbEx4 (by decide)

/- ### C3: the copies invariant -/

/-- Number of outstanding ("borrowed") loans of a given book. -/
def outstanding (loans : List (String × Loan)) (bid : String) : Int :=
  ((loans.filter (fun p => p.2.book_id == bid && p.2.status == "borrowed")).length : Int)

theorem outstanding_cons (q : String × Loan) (loans : List (String × Loan)) (bid : String) :
    outstanding (q :: loans) bid =
      (if q.2.book_id == bid && q.2.status == "borrowed" then 1 else 0) +
        outstanding loans bid := by
  unfold outstanding
  rw [List.filter_cons]
  split
  · simp only [List.length_cons]
    push_cast
    ring
  · simp

theorem outstanding_nonneg (loans : List (String × Loan)) (bid : String) :
    0 ≤ outstanding loans bid :=
  Int.natCast_nonneg _

theorem outstanding_updateFirst_return (loans : List (String × Loan)) (lid : String)
    (now : Int) (loan : Loan)
    (hf : findDoc loans lid = some loan) (hb : loan.status = "borrowed") (bid : String) :
    outstanding (updateFirst loans lid (markReturned now)) bid =
      outstanding loans bid - (if loan.book_id == bid then 1 else 0) := by
  induction loans with
  | nil => simp [findDoc] at hf
  | cons q rest ih =>
      obtain ⟨k, v⟩ := q
      by_cases hk : k == lid
      · have hv : v = loan := by
          simp only [findDoc, hk, if_true] at hf
          exact Option.some.inj hf
        subst hv
        simp only [updateFirst, hk, if_true]
        rw [outstanding_cons, outstanding_cons]
        by_cases hbid : (v.book_id == bid) = true
        · simp [markReturned, hb, hbid]
        · simp [markReturned, hb, hbid]
      · have hk2 : (k == lid) = false := by simpa using hk
        simp only [updateFirst, findDoc, hk2, Bool.false_eq_true, if_false] at hf ⊢
        rw [outstanding_cons, outstanding_cons, ih hf]
        ring

theorem outstanding_eq_zero (loans : List (String × Loan)) (bid : String)
    (h : ∀ p ∈ loans, p.2.status = "borrowed" → p.2.book_id ≠ bid) :
    outstanding loans bid = 0 := by
  induction loans with
  | nil => rfl
  | cons q rest ih =>
      rw [outstanding_cons]
      have hq : (q.2.book_id == bid && q.2.status == "borrowed") = false := by
        by_cases hs : q.2.status = "borrowed"
        · have hne := h q (List.mem_cons_self _ _) hs
          simp [hs, hne]
        · simp [hs]
      rw [hq, ih (fun p hp hs => h p (List.mem_cons_of_mem _ hp) hs)]
      simp

/-- The strengthened state invariant behind C3: book keys are distinct,
every book satisfies `copies_available + outstanding = copies_total`
with `copies_available ≥ 0`, loan statuses are "borrowed" or "returned",
and every borrowed loan references an existing book through a
well-formed identifier. -/
def StoreInv (db : DB) : Prop :=
  (db.books.map Prod.fst).Nodup ∧
  (∀ p ∈ db.books, 0 ≤ p.2.copies_available ∧
      p.2.copies_available + outstanding db.loans p.1 = p.2.copies_total) ∧
  (∀ q ∈ db.loans, q.2.status = "borrowed" ∨ q.2.status = "returned") ∧
  (∀ q ∈ db.loans, q.2.status = "borrowed" →
      isValidObjectId q.2.book_id = true ∧ q.2.book_id ∈ db.books.map Prod.fst)

theorem inv_add_member {db db2 : DB} {pl : MemberIn} {id : String}
    (h : add_member db pl = Except.ok (id, db2)) : StoreInv db → StoreInv db2 := by
  obtain ⟨-, hdb, -⟩ := add_member_ok h
  subst hdb
  exact fun hi => hi

theorem inv_add_book {db db2 : DB} {pl : BookIn} {id : String}
    (hct : 0 ≤ pl.copies_total)
    (h : add_book db pl = Except.ok (id, db2)) : StoreInv db → StoreInv db2 := by
  obtain ⟨-, hdb, hfresh⟩ := add_book_ok h
  subst hdb
  rintro ⟨hnd, hbk, hls, hlb⟩
  refine ⟨?_, ?_, hls, ?_⟩
  · simp only [List.map_cons, List.nodup_cons]
    refine ⟨fun hc => ?_, hnd⟩
    obtain ⟨⟨k, v⟩, hkv, hk⟩ := List.mem_map.mp hc
    dsimp at hk
    subst hk
    exact findDoc_none_not_mem db.books (genId db.nextId) hfresh v hkv
  · intro p hp
    dsimp only at hp ⊢
    rcases List.mem_cons.mp hp with rfl | hp
    · dsimp only
      constructor
      · simpa [mkBook] using hct
      · have hz : outstanding db.loans (genId db.nextId) = 0 := by
          apply outstanding_eq_zero
          intro q hq hqs hqid
          have hmemk := (hlb q hq hqs).2
          rw [hqid] at hmemk
          obtain ⟨⟨k, v⟩, hkv, hk⟩ := List.mem_map.mp hmemk
          dsimp at hk
          subst hk
          exact findDoc_none_not_mem db.books (genId db.nextId) hfresh v hkv
        rw [hz]
        simp [mkBook]
    · exact hbk p hp
  · intro q hq hqs
    obtain ⟨hv, hk⟩ := hlb q hq hqs
    refine ⟨hv, ?_⟩
    dsimp only
    simp only [List.map_cons]
    exact List.mem_cons_of_mem _ hk

theorem inv_create_loan {db db2 : DB} {now : Int} {pl : LoanIn} {id : String}
    (h : create_loan db now pl = Except.ok (id, db2)) : StoreInv db → StoreInv db2 := by
  obtain ⟨hv1, -, book, hf1, hc, -, -, -, hdb⟩ := create_loan_ok h
  subst hdb
  rintro ⟨hnd, hbk, hls, hlb⟩
  refine ⟨?_, ?_, ?_, ?_⟩
  · dsimp only
    rw [updateFirst_keys]
    exact hnd
  · intro p hp
    dsimp only at hp ⊢
    rcases mem_updateFirst_nodup db.books pl.book_id decCopies hnd p hp with
      ⟨hpl, hpne⟩ | ⟨v, hfv, rfl⟩
    · obtain ⟨h0, hsum⟩ := hbk p hpl
      refine ⟨h0, ?_⟩
      rw [outstanding_cons]
      have hz : ((genId db.nextId, mkLoan now pl).2.book_id == p.1 &&
          (genId db.nextId, mkLoan now pl).2.status == "borrowed") = false := by
        dsimp
        simp only [mkLoan, Bool.and_eq_false_iff]
        left
        simp only [beq_eq_false_iff_ne]
        exact fun hcc => hpne hcc.symm
      rw [hz]
      simpa using hsum
    · have hvb : v = book := by
        rw [hf1] at hfv
        exact (Option.some.inj hfv).symm
      subst hvb
      obtain ⟨h0, hsum⟩ := hbk (pl.book_id, v) (findDoc_some_mem db.books pl.book_id v hfv)
      dsimp at h0 hsum ⊢
      constructor
      · simp only [decCopies]
        omega
      · rw [outstanding_cons]
        have ho : ((genId db.nextId, mkLoan now pl).2.book_id == pl.book_id &&
            (genId db.nextId, mkLoan now pl).2.status == "borrowed") = true := by
          simp [mkLoan]
        rw [ho]
        simp only [decCopies]
        simp
        omega
  · intro q hq
    dsimp only at hq
    rcases List.mem_cons.mp hq with rfl | hq
    · left; rfl
    · exact hls q hq
  · intro q hq hqs
    dsimp only at hq ⊢
    rcases List.mem_cons.mp hq with rfl | hq
    · refine ⟨hv1, ?_⟩
      rw [updateFirst_keys]
      exact List.mem_map_of_mem Prod.fst (findDoc_some_mem db.books pl.book_id book hf1)
    · obtain ⟨ha, hb2⟩ := hlb q hq hqs
      refine ⟨ha, ?_⟩
      rw [updateFirst_keys]
      exact hb2

theorem inv_return_book {db db2 : DB} {now : Int} {lid s : String}
    (h : return_book db now lid = Except.ok (s, db2)) : StoreInv db → StoreInv db2 := by
  obtain ⟨-, hvl, loan, hf, hst, hdb⟩ := return_book_ok h
  subst hdb
  rintro ⟨hnd, hbk, hls, hlb⟩
  have hborr : loan.status = "borrowed" := by
    rcases hls (lid, loan) (findDoc_some_mem db.loans lid loan hf) with h1 | h1
    · exact h1
    · exact absurd h1 hst
  obtain ⟨hvbid, hbmem⟩ := hlb (lid, loan) (findDoc_some_mem db.loans lid loan hf) hborr
  refine ⟨?_, ?_, ?_, ?_⟩
  · dsimp only
    rw [if_pos hvbid, updateFirst_keys]
    exact hnd
  · intro p hp
    dsimp only at hp ⊢
    rw [if_pos hvbid] at hp
    rcases mem_updateFirst_nodup db.books loan.book_id incCopies hnd p hp with
      ⟨hpl, hpne⟩ | ⟨v, hfv, rfl⟩
    · obtain ⟨h0, hsum⟩ := hbk p hpl
      refine ⟨h0, ?_⟩
      rw [outstanding_updateFirst_return db.loans lid now loan hf hborr p.1]
      have hz : (loan.book_id == p.1) = false := by
        simp only [beq_eq_false_iff_ne]
        exact fun hcc => hpne hcc.symm
      rw [hz]
      simpa using hsum
    · obtain ⟨h0, hsum⟩ := hbk (loan.book_id, v) (findDoc_some_mem db.books loan.book_id v hfv)
      dsimp at h0 hsum ⊢
      constructor
      · simp only [incCopies]
        omega
      · rw [outstanding_updateFirst_return db.loans lid now loan hf hborr loan.book_id]
        simp only [incCopies, beq_self_eq_true]
        simp
        omega
  · intro q hq
    dsimp only at hq
    rcases mem_updateFirst db.loans lid (markReturned now) q hq with hq | ⟨w, hw, rfl⟩
    · exact hls q hq
    · right; rfl
  · intro q hq hqs
    dsimp only at hq ⊢
    rcases mem_updateFirst db.loans lid (markReturned now) q hq with hq | ⟨w, hw, rfl⟩
    · obtain ⟨ha, hb2⟩ := hlb q hq hqs
      refine ⟨ha, ?_⟩
      rw [if_pos hvbid, updateFirst_keys]
      exact hb2
    · simp [markReturned] at hqs

theorem goodStep_inv (db db2 : DB) (h : GoodStep db db2) : StoreInv db → StoreInv db2 := by
  cases h with
  | addBook pl id db2x hct heq => exact inv_add_book hct heq
  | addMember pl id db2x heq => exact inv_add_member heq
  | createLoan now pl id db2x heq => exact inv_create_loan heq
  | returnLoan now lid s db2x heq => exact inv_return_book heq

theorem reachG_inv (db : DB) (h : ReachG db) : StoreInv db := by
  induction h with
  | init =>
      exact ⟨by simp [dbInit], by simp [dbInit], by simp [dbInit], by simp [dbInit]⟩
  | step db db2 h1 h2 ih => exact goodStep_inv db db2 h2 ih

/-- C3 (amended): in every store reachable by successful requests in
which each created book had `copies_total ≥ 0` (a precondition
`add_book` itself does not check), every book satisfies
`0 ≤ copies_available ≤ copies_total`; the bound is kept by every
sequential execution of `create_loan` and `return_book`. -/
theorem c3_copies_invariant (db : DB) (hr : ReachG db) (id : String) (b : Book)
    (hb : (id, b) ∈ db.books) :
    0 ≤ b.copies_available ∧ b.copies_available ≤ b.copies_total := by
  obtain ⟨-, hbk, -, -⟩ := reachG_inv db hr
  obtain ⟨h0, hsum⟩ := hbk (id, b) hb
  dsimp at h0 hsum
  have hnn := outstanding_nonneg db.loans id
  exact ⟨h0, by omega⟩

theorem reachG_dbEx1 : ReachG dbEx1 :=
  ReachG.step dbInit dbEx1 ReachG.init
    (GoodStep.addBook dbInit bkEx (genId 0) dbEx1 (by decide) add_book_ex)

/-- Witness for C3 (amended) at the concrete one-book store. -/
theorem c3_witness :
    0 ≤ (mkBook bkEx).copies_available ∧
    (mkBook bkEx).copies_available ≤ (mkBook bkEx).copies_total :=
  c3_copies_invariant dbEx1 reachG_dbEx1 (genId 0) (mkBook bkEx) (by simp [dbEx1])
